import Mathlib

/-!
Verification development for the ai-budget-planner backend core:
the Ledger Store (plans / categories / items / notes over a relational
database), the Budget Invariant Checker, the Reorder Protocol and the
in-memory Notification Hub.

The Go repository layer is shallowly embedded: a database snapshot is a
record of row lists (row order is representation only — tables are sets of
rows keyed by primary key), SQL queries become list functions, each
repository method becomes a pure function from a snapshot (plus the
nondeterministic inputs the code draws from the environment: fresh UUIDs,
NOW()) to an `Except` result and an updated snapshot.  UUIDs are embedded
as `Nat`, `int64` amounts as `Int`, timestamps as `Nat` tick counts.
-/

namespace Budget

/-- Taxonomy of repository errors (`backend/internal/repository/errors.go`):
`ErrNotFound`, `ErrConflict`, `ErrInvalid`, `ErrBudgetExceeded`, plus a
generic non-taxonomy failure (e.g. `fmt.Errorf("missing category mapping")`
inside `Duplicate`). -/
inductive RepoError where
  | notFound
  | conflict
  | invalid
  | budgetExceeded
  | internalErr
  deriving Repr, DecidableEq

/-- Model of `models.CategoryType`: `mandatory` or `optional`. -/
inductive CategoryType where
  | mandatory
  | optional
  deriving Repr, DecidableEq

/-- Model of `models.PriorityColor`: `red`, `yellow`, `green`. -/
inductive PriorityColor where
  | red
  | yellow
  | green
  deriving Repr, DecidableEq

/-- Model of `models.NoteType`: `ai` or `user`. -/
inductive NoteType where
  | ai
  | user
  deriving Repr, DecidableEq

/-- Row of `budget_plans` (`models.BudgetPlan`).  Timestamps other than the
ones claims talk about are omitted. -/
structure BudgetPlan where
  id : Nat
  userId : Nat
  title : String
  budgetCents : Int
  periodStart : Nat
  periodEnd : Nat
  backgroundColor : String
  isAIGenerated : Bool
  deriving Repr, DecidableEq

/-- Row of `expense_categories` (`models.ExpenseCategory`). -/
structure ExpenseCategory where
  id : Nat
  planId : Nat
  title : String
  categoryType : CategoryType
  sortOrder : Int
  deriving Repr, DecidableEq

/-- Row of `expense_items` (`models.ExpenseItem`).  `updatedAt` is kept
because `Toggle`/`Update` set it with `NOW()`. -/
structure ExpenseItem where
  id : Nat
  categoryId : Nat
  title : String
  amountCents : Int
  priorityColor : PriorityColor
  isCompleted : Bool
  sortOrder : Int
  updatedAt : Nat
  deriving Repr, DecidableEq

/-- Row of `notes` (`models.Note`). -/
structure Note where
  id : Nat
  planId : Nat
  content : String
  noteType : NoteType
  sortOrder : Int
  deriving Repr, DecidableEq

/-- A snapshot of the four core tables. -/
structure DB where
  plans : List BudgetPlan
  categories : List ExpenseCategory
  items : List ExpenseItem
  notes : List Note
  deriving Repr, DecidableEq

/-- Primary-key well-formedness: each table's ids are pairwise distinct
(the schema's PRIMARY KEY constraints). -/
def DB.WF (db : DB) : Prop :=
  (db.plans.map (·.id)).Nodup ∧ (db.categories.map (·.id)).Nodup ∧
  (db.items.map (·.id)).Nodup ∧ (db.notes.map (·.id)).Nodup

instance (db : DB) : Decidable db.WF := by
  unfold DB.WF; infer_instance

/-- Does item `i` belong to plan `planId`?  This is the join
`expense_items i JOIN expense_categories c ON c.id = i.category_id
WHERE c.plan_id = planId` (category ids are unique by the PK). -/
def itemInPlan (db : DB) (planId : Nat) (i : ExpenseItem) : Bool :=
  db.categories.any (fun c => c.id == i.categoryId && c.planId == planId)

/-- Model of `sumPlanAmount` (item repository helper):
`SELECT COALESCE(SUM(i.amount_cents), 0) FROM expense_items i
JOIN expense_categories c ON c.id = i.category_id WHERE c.plan_id = $1` —
the total of ALL item amounts of the plan, completed or not. -/
def sumPlanAmount (db : DB) (planId : Nat) : Int :=
  ((db.items.filter (itemInPlan db planId)).map (·.amountCents)).sum

/-- Model of `PlanRepository.GetSpentCents`:
`SELECT COALESCE(SUM(CASE WHEN i.is_completed THEN i.amount_cents ELSE 0 END), 0)
FROM expense_categories c LEFT JOIN expense_items i ON i.category_id = c.id
WHERE c.plan_id = $1`.  Note: no `user_id` filter and no existence check;
the aggregate always yields a row, so the operation always succeeds. -/
def getSpentCents (db : DB) (planId : Nat) : Except RepoError Int :=
  .ok (((db.items.filter (itemInPlan db planId)).map
    (fun i => if i.isCompleted then i.amountCents else 0)).sum)

/-- Model of `lockPlanBudget` (item repository helper):
`SELECT budget_cents FROM budget_plans WHERE id = $1 AND user_id = $2
FOR UPDATE`, `ErrNotFound` on no row. -/
def lockPlanBudget (db : DB) (userId planId : Nat) : Except RepoError Int :=
  match db.plans.find? (fun p => p.id == planId && p.userId == userId) with
  | some p => .ok p.budgetCents
  | none => .error .notFound

/-- Model of `ensureCategoryInPlan`: `SELECT EXISTS (SELECT 1 FROM expense_categories
WHERE id = $1 AND plan_id = $2)`, `ErrNotFound` when absent. -/
def ensureCategoryInPlan (db : DB) (categoryId planId : Nat) : Except RepoError Unit :=
  if db.categories.any (fun c => c.id == categoryId && c.planId == planId) then .ok ()
  else .error .notFound

/-- The three-way join used by `Update`, `Toggle` and `Reorder` of the item
repository: `FROM expense_items i JOIN expense_categories c ON
c.id = i.category_id JOIN budget_plans p ON p.id = c.plan_id WHERE
i.id = $1 AND p.user_id = $2` (primary keys make `find?` the join). -/
def findItemPlan (db : DB) (userId itemId : Nat) :
    Option (ExpenseItem × ExpenseCategory × BudgetPlan) :=
  match db.items.find? (fun i => i.id == itemId) with
  | none => none
  | some i =>
    match db.categories.find? (fun c => c.id == i.categoryId) with
    | none => none
    | some c =>
      match db.plans.find? (fun p => p.id == c.planId && p.userId == userId) with
      | none => none
      | some p => some (i, c, p)

/-- Model of `ItemRepository.Create`: lock the plan budget, check the category
belongs to the plan, recompute the plan-wide total, reject with
`ErrBudgetExceeded` when `currentTotal + amountCents > budgetCents`,
otherwise insert with `sort_order = COALESCE(MAX(sort_order), -1) + 1`.
`newId` stands for `uuid.New()` and `now` for the insert timestamp. -/
def itemCreate (db : DB) (userId planId categoryId : Nat) (title : String)
    (amountCents : Int) (priorityColor : PriorityColor) (isCompleted : Bool)
    (newId now : Nat) : Except RepoError (ExpenseItem × DB) :=
  match lockPlanBudget db userId planId with
  | .error e => .error e
  | .ok budgetCents =>
    match ensureCategoryInPlan db categoryId planId with
    | .error e => .error e
    | .ok _ =>
      let currentTotal := sumPlanAmount db planId
      if currentTotal + amountCents > budgetCents then
        .error .budgetExceeded
      else
        let maxOrder := ((db.items.filter (fun i => i.categoryId == categoryId)).map
          (·.sortOrder)).foldl max (-1)
        let item : ExpenseItem :=
          { id := newId, categoryId := categoryId, title := title,
            amountCents := amountCents, priorityColor := priorityColor,
            isCompleted := isCompleted, sortOrder := maxOrder + 1, updatedAt := now }
        .ok (item, { db with items := db.items ++ [item] })

/-- Model of `ItemRepository.Update`: resolve item + plan with ownership
(`FOR UPDATE OF p`), compute `newTotal = currentTotal − oldAmount +
newAmount`, reject with `ErrBudgetExceeded` when `newTotal > budgetCents`,
otherwise update title / amount / priority and `updated_at = NOW()`. -/
def itemUpdate (db : DB) (userId itemId : Nat) (title : String)
    (amountCents : Int) (priorityColor : PriorityColor) (now : Nat) :
    Except RepoError (ExpenseItem × DB) :=
  match findItemPlan db userId itemId with
  | none => .error .notFound
  | some (i, _, p) =>
    let currentTotal := sumPlanAmount db p.id
    let newTotal := currentTotal - i.amountCents + amountCents
    if newTotal > p.budgetCents then
      .error .budgetExceeded
    else
      let upd := fun (j : ExpenseItem) =>
        if j.id == itemId then
          { j with title := title, amountCents := amountCents,
                   priorityColor := priorityColor, updatedAt := now }
        else j
      .ok (upd i, { db with items := db.items.map upd })

/-- Model of `ItemRepository.Toggle`: read the current `is_completed` (with
ownership), set it to the supplied value or to its negation when the
request carries no value (`isCompleted == nil`), bump `updated_at`.
There is no budget computation anywhere on this path. -/
def itemToggle (db : DB) (userId itemId : Nat) (isCompleted : Option Bool)
    (now : Nat) : Except RepoError (ExpenseItem × DB) :=
  match findItemPlan db userId itemId with
  | none => .error .notFound
  | some (i, _, _) =>
    let newValue := match isCompleted with
      | none => !i.isCompleted
      | some v => v
    let upd := fun (j : ExpenseItem) =>
      if j.id == itemId then { j with isCompleted := newValue, updatedAt := now }
      else j
    .ok (upd i, { db with items := db.items.map upd })

section ReorderProtocol

variable {r : Type} (getId : r → Nat) (inParent : r → Bool)
variable (getOrder : r → Int) (setOrder : r → Int → r)

/-- Shared core of the Reorder Protocol (the body of
`ItemRepository.Reorder`, `NoteRepository.Reorder` and
`PlanRepository.ReorderCategories` after anchor resolution, which are
textually identical up to the table): count the parent rows whose id is in
the supplied list, count all parent rows, reject either mismatch with
`ErrInvalid`, then bulk-update `sort_order = ord − 1` from
`unnest($1::uuid[]) WITH ORDINALITY` (position = 0-based list index) and
reject a rows-affected mismatch with `mismatchErr` (`ErrInvalid` for items
and notes, `ErrNotFound` for categories).  An error result models the
transaction rollback: no row is changed. -/
def reorderCore (rows : List r) (ids : List Nat) (mismatchErr : RepoError) :
    Except RepoError (List r) :=
  if (rows.filter (fun x => inParent x && ids.contains (getId x))).length ≠ ids.length then
    .error .invalid
  else if (rows.filter (fun x => inParent x)).length ≠ ids.length then
    .error .invalid
  else if (rows.filter (fun x => inParent x && ids.contains (getId x))).length ≠ ids.length then
    .error mismatchErr
  else
    .ok (rows.map (fun x =>
      if inParent x && ids.contains (getId x) then
        setOrder x (Int.ofNat (ids.indexOf (getId x)))
      else x))

end ReorderProtocol

/-- Commit helper of the item reorder: propagate an error (rollback) or
commit the updated item table. -/
def withItems (db : DB) (res : Except RepoError (List ExpenseItem)) :
    Except RepoError DB :=
  match res with
  | .error e => .error e
  | .ok items' => .ok { db with items := items' }

/-- Commit helper of the note reorder. -/
def withNotes (db : DB) (res : Except RepoError (List Note)) :
    Except RepoError DB :=
  match res with
  | .error e => .error e
  | .ok notes' => .ok { db with notes := notes' }

/-- Commit helper of the category reorder. -/
def withCategories (db : DB) (res : Except RepoError (List ExpenseCategory)) :
    Except RepoError DB :=
  match res with
  | .error e => .error e
  | .ok cats' => .ok { db with categories := cats' }

/-- Model of `ItemRepository.Reorder`: reject an empty list with
`ErrInvalid`, resolve the anchor item's category (with ownership,
`ErrNotFound` when absent), then run the reorder core over the item
table scoped to that category. -/
def itemReorder (db : DB) (userId itemId : Nat) (itemIds : List Nat) :
    Except RepoError DB :=
  if itemIds.length = 0 then .error .invalid
  else
    match findItemPlan db userId itemId with
    | none => .error .notFound
    | some (_, c, _) =>
      withItems db (reorderCore (·.id) (fun x => x.categoryId == c.id)
        (fun x o => { x with sortOrder := o }) db.items itemIds .invalid)

/-- Anchor resolution of `NoteRepository.Reorder`:
`SELECT n.plan_id FROM notes n JOIN budget_plans p ON p.id = n.plan_id
WHERE n.id = $1 AND p.user_id = $2`. -/
def findNotePlan (db : DB) (userId noteId : Nat) : Option Nat :=
  match db.notes.find? (fun n => n.id == noteId) with
  | none => none
  | some n =>
    match db.plans.find? (fun p => p.id == n.planId && p.userId == userId) with
    | none => none
    | some _ => some n.planId

/-- Model of `NoteRepository.Reorder`: reject an empty list with
`ErrInvalid`, resolve the anchor note's plan (with ownership), then run
the reorder core over the note table scoped to that plan. -/
def noteReorder (db : DB) (userId noteId : Nat) (noteIds : List Nat) :
    Except RepoError DB :=
  if noteIds.length = 0 then .error .invalid
  else
    match findNotePlan db userId noteId with
    | none => .error .notFound
    | some planId =>
      withNotes db (reorderCore (·.id) (fun n => n.planId == planId)
        (fun n o => { n with sortOrder := o }) db.notes noteIds .invalid)

/-- Model of `PlanRepository.ReorderCategories`: check the plan exists and
is owned (`ErrNotFound` otherwise, no empty-list precheck in this variant),
then run the reorder core over the category table scoped to the plan; its
rows-affected mismatch error is `ErrNotFound`. -/
def reorderCategories (db : DB) (userId planId : Nat) (categoryIds : List Nat) :
    Except RepoError DB :=
  if db.plans.any (fun p => p.id == planId && p.userId == userId) then
    withCategories db (reorderCore (·.id) (fun c => c.planId == planId)
      (fun c o => { c with sortOrder := o }) db.categories categoryIds .notFound)
  else .error .notFound

/-- Readback contract of a successful reorder over the children of one
parent: the supplied id list is duplicate-free, the children's ids are
exactly that list (as a permutation), every child sits at position = the
0-based index of its id in the list, and looking up the child at each
position k yields the k-th supplied id — i.e. reading children back
ordered by position yields exactly the supplied sequence with positions
0..N−1, no gaps, no duplicates. -/
def ReorderSpec {r : Type} (children : List r) (getId : r → Nat)
    (getOrder : r → Int) (ids : List Nat) : Prop :=
  ids.Nodup ∧
  (children.map getId).Perm ids ∧
  (∀ x ∈ children, getOrder x = Int.ofNat (ids.indexOf (getId x)) ∧ getId x ∈ ids) ∧
  (∀ k (hk : k < ids.length),
    ∃ x, children.find? (fun y => getOrder y == Int.ofNat k) = some x ∧
      getId x = ids.get ⟨k, hk⟩)

/-- A notification event (`notifications.Event`): type tag, timestamp
stamped by `Publish` with the current UTC time (a tick count here), and an
opaque payload standing for the dynamic `Data` field. -/
structure Event where
  eventType : String
  timestamp : Nat
  data : String
  deriving Repr, DecidableEq

/-- A Go `chan Event` as allocated by `Subscribe` (`make(chan Event, 10)`):
an identity, the queue of buffered events (oldest first), the buffer
capacity and the closed flag.  In Go, `close` on an already-closed channel
panics; operations model a panic as `none`. -/
structure Chan where
  id : Nat
  buf : List Event
  capacity : Nat
  closed : Bool
  deriving Repr, DecidableEq

/-- The notification hub (`notifications.Hub`): the registry mapping a user
id to the set of channel ids subscribed for that user, plus the states of
all channels ever allocated (a closed channel stays in the store — the Go
object persists, only the registry entry goes away).  The mutex serializes
operations, so each operation is a plain state transformer. -/
structure Hub where
  subscribers : List (Nat × List Nat)
  chans : List Chan
  deriving Repr, DecidableEq

/-- Registry lookup `h.subscribers[userID]` (empty when absent). -/
def regLookup (subs : List (Nat × List Nat)) (userId : Nat) : List Nat :=
  match subs.find? (fun e => e.1 == userId) with
  | some e => e.2
  | none => []

/-- Model of `Hub.Subscribe`: allocate a fresh channel of capacity 10 and
register it under the user (creating the user entry when missing).  The
returned unsubscribe closure is modelled by `hubUnsubscribe` applied to
the same user id and channel id. -/
def hubSubscribe (h : Hub) (userId : Nat) (newChId : Nat) : Hub × Nat :=
  let ch : Chan := { id := newChId, buf := [], capacity := 10, closed := false }
  let subs :=
    match h.subscribers.find? (fun e => e.1 == userId) with
    | some _ => h.subscribers.map (fun e =>
        if e.1 == userId then (e.1, e.2 ++ [newChId]) else e)
    | none => h.subscribers ++ [(userId, [newChId])]
  ({ subscribers := subs, chans := h.chans ++ [ch] }, newChId)

/-- Go `close(ch)`: mark the channel closed; `none` (a runtime panic) when
the channel is already closed. -/
def closeChan (chans : List Chan) (chId : Nat) : Option (List Chan) :=
  match chans.find? (fun ch => ch.id == chId) with
  | none => none
  | some ch =>
    if ch.closed then none
    else some (chans.map (fun c =>
      if c.id == chId then { c with closed := true } else c))

/-- Registry removal performed by the unsubscribe closure: when the user
has an entry, delete the one channel from it and drop the entry when it
becomes empty; otherwise leave the registry alone. -/
def regRemove (subs : List (Nat × List Nat)) (userId chId : Nat) :
    List (Nat × List Nat) :=
  match subs.find? (fun e => e.1 == userId) with
  | none => subs
  | some _ =>
    (subs.map (fun e =>
      if e.1 == userId then (e.1, e.2.filter (fun c => !(c == chId))) else e)).filter
      (fun e => !(e.1 == userId) || !e.2.isEmpty)

/-- The unsubscribe closure returned by `Hub.Subscribe`: remove the channel
from the registry (guarded by the user-entry existence check), then call
`close(ch)` UNCONDITIONALLY — the `close` sits outside the `if exists`
guard and carries no already-closed protection, so a second invocation
closes a closed channel: `none`, a Go panic. -/
def hubUnsubscribe (h : Hub) (userId chId : Nat) : Option Hub :=
  match closeChan h.chans chId with
  | none => none
  | some chans' => some { subscribers := regRemove h.subscribers userId chId,
                          chans := chans' }

/-- The non-blocking send `select { case ch <- event: default: }`: enqueue
when the buffer has room, otherwise drop the event and leave the channel
unchanged. -/
def trySend (ch : Chan) (e : Event) : Chan :=
  if ch.buf.length < ch.capacity then { ch with buf := ch.buf ++ [e] } else ch

/-- Model of `Hub.Publish`: stamp the event with the current time, look up
the user's registered channels (no entry means no delivery), and
non-blocking-send to each of them.  Publish is a total function: it never
fails and never blocks. -/
def hubPublish (h : Hub) (userId : Nat) (e : Event) (now : Nat) : Hub :=
  let stamped : Event := { e with timestamp := now }
  let targets := regLookup h.subscribers userId
  { h with chans := h.chans.map (fun ch =>
      if targets.contains ch.id then trySend ch stamped else ch) }

/-- The empty hub (`NewHub`). -/
def emptyHub : Hub := { subscribers := [], chans := [] }

/-- The hub after one subscription of user 1 (channel id 42). -/
def hubAfterSub : Hub := (hubSubscribe emptyHub 1 42).1

/-- The hub after that subscription is unsubscribed once: the registry is
empty again and channel 42 is closed. -/
def hubAfterUnsub : Hub :=
  { subscribers := [],
    chans := [{ id := 42, buf := [], capacity := 10, closed := true }] }

/-- Demo hub for fan-out: user 1 has channels 10 and 11, user 2 has
channel 20, all empty. -/
def fanoutHub : Hub :=
  { subscribers := [(1, [10, 11]), (2, [20])],
    chans := [{ id := 10, buf := [], capacity := 10, closed := false },
              { id := 11, buf := [], capacity := 10, closed := false },
              { id := 20, buf := [], capacity := 10, closed := false }] }

/-- A demo event before stamping. -/
def demoEvent : Event :=
  { eventType := "budget_updated", timestamp := 0, data := "plan 10" }

/-- The demo event as stamped by a publish at tick 7. -/
def stampedDemoEvent : Event :=
  { eventType := "budget_updated", timestamp := 7, data := "plan 10" }

/-- Demo hub with one full channel (id 30, ten queued events) and one
empty channel (id 31), both of user 1. -/
def fullChanHub : Hub :=
  { subscribers := [(1, [30, 31])],
    chans := [{ id := 30, buf := List.replicate 10 demoEvent, capacity := 10,
                closed := false },
              { id := 31, buf := [], capacity := 10, closed := false }] }

/-- Model of `PlanRepository.GetByID`:
`SELECT ... FROM budget_plans WHERE id = $1 AND user_id = $2`,
`ErrNotFound` on no row. -/
def planGetByID (db : DB) (userId planId : Nat) : Except RepoError BudgetPlan :=
  match db.plans.find? (fun p => p.id == planId && p.userId == userId) with
  | some p => .ok p
  | none => .error .notFound

/-- The handler-level composition every getSpent use goes through
(`buildPlanDetailResponse`, `publishBudgetUpdate`): `GetByID` first — which
yields `NotFound` for a missing or not-owned plan — then `GetSpentCents` on
the plan that was found. -/
def getSpentForUser (db : DB) (userId planId : Nat) : Except RepoError Int :=
  match planGetByID db userId planId with
  | .error e => .error e
  | .ok p => getSpentCents db p.id

/-- Model of `buildCopyTitle`: prefix with the copy marker `"Copy of "` and
truncate to `maxRunes` CHARACTERS (Go `[]rune`), not bytes.  Lean's
`String.length` counts characters, matching `len([]rune(s))`. -/
def buildCopyTitle (title : String) (maxRunes : Nat) : String :=
  let copyTitle := "Copy of " ++ title
  if copyTitle.length ≤ maxRunes then copyTitle
  else ((copyTitle.toList).take maxRunes).asString

/-- The categories of a plan (`SELECT ... WHERE plan_id = $1`). -/
def catsOfPlan (db : DB) (planId : Nat) : List ExpenseCategory :=
  db.categories.filter (fun c => c.planId == planId)

/-- The items of a category (`SELECT ... WHERE category_id = $1`). -/
def itemsOfCat (db : DB) (categoryId : Nat) : List ExpenseItem :=
  db.items.filter (fun i => i.categoryId == categoryId)

/-- The notes of a plan (`SELECT ... WHERE plan_id = $1`). -/
def notesOfPlan (db : DB) (planId : Nat) : List Note :=
  db.notes.filter (fun n => n.planId == planId)

/-- The attributes of an item that `Duplicate` copies verbatim (everything
but the fresh id and the remapped category). -/
def itemData (i : ExpenseItem) : String × Int × PriorityColor × Bool × Int :=
  (i.title, i.amountCents, i.priorityColor, i.isCompleted, i.sortOrder)

/-- The item-copy loop of `Duplicate`: each source item gets a fresh id
(successive ids model successive `uuid.New()` draws) and its category id
remapped through `categoryMap`; a missing mapping aborts with the generic
`missing category mapping` failure. -/
def copyItems (categoryMap : List (Nat × Nat)) :
    List ExpenseItem → Nat → Except RepoError (List ExpenseItem)
  | [], _ => .ok []
  | i :: rest, nextId =>
    match categoryMap.lookup i.categoryId with
    | none => .error .internalErr
    | some newCatId =>
      match copyItems categoryMap rest (nextId + 1) with
      | .error e => .error e
      | .ok copied => .ok ({ i with id := nextId, categoryId := newCatId } :: copied)

/-- Fresh-id copies of the plan's categories: the k-th category (in row
order) takes id `freshBase + 1 + k` and hangs off the new plan. -/
def dupNewCats (db : DB) (planId freshBase : Nat) : List ExpenseCategory :=
  ((catsOfPlan db planId).enumFrom (freshBase + 1)).map (fun e =>
    { e.2 with id := e.1, planId := freshBase })

/-- The old-category-id to new-category-id map built during the category
copy (`categoryMap`). -/
def dupCategoryMap (db : DB) (planId freshBase : Nat) : List (Nat × Nat) :=
  ((catsOfPlan db planId).enumFrom (freshBase + 1)).map (fun e => (e.2.id, e.1))

/-- One copied item row: fresh id from the enumeration, category id
remapped through the copy map, all other attributes identical. -/
def dupItemCopy (cmap : List (Nat × Nat)) (e : Nat × ExpenseItem) : ExpenseItem :=
  { e.2 with id := e.1, categoryId := ((cmap.lookup e.2.categoryId)).getD 0 }

/-- The items selected for copying:
`WHERE category_id = ANY(oldCategoryIDs)`. -/
def dupOldItems (db : DB) (planId : Nat) : List ExpenseItem :=
  db.items.filter (fun i => ((catsOfPlan db planId).map (·.id)).contains i.categoryId)

/-- First fresh id handed to the item copies. -/
def dupItemBase (db : DB) (planId freshBase : Nat) : Nat :=
  freshBase + 1 + (catsOfPlan db planId).length

/-- Fresh-id copies of the plan's notes, identical content / type /
position, hung off the new plan. -/
def dupNewNotes (db : DB) (planId freshBase : Nat) : List Note :=
  ((notesOfPlan db planId).enumFrom
    (dupItemBase db planId freshBase + (dupOldItems db planId).length)).map
    (fun e => { e.2 with id := e.1, planId := freshBase })

/-- The duplicated plan row: fresh id, copy-marker title, and the
original's owner, ceiling, period, color and AI flag. -/
def dupNewPlan (original : BudgetPlan) (freshBase : Nat) : BudgetPlan :=
  { original with id := freshBase, title := buildCopyTitle original.title 200 }

/-- The snapshot committed by a successful `Duplicate`. -/
def dupDb (db : DB) (planId freshBase : Nat) (original : BudgetPlan)
    (newItems : List ExpenseItem) : DB :=
  { plans := db.plans ++ [dupNewPlan original freshBase],
    categories := db.categories ++ dupNewCats db planId freshBase,
    items := db.items ++ newItems,
    notes := db.notes ++ dupNewNotes db planId freshBase }

/-- Model of `PlanRepository.Duplicate`: load the owned original
(`ErrNotFound` otherwise), insert the new plan with a fresh id, the
copy-marker title and the original's ceiling / period / color / AI flag,
then copy every category, item (category ids remapped through
`categoryMap`, abort on a missing mapping) and note with fresh ids and
identical attributes.  `freshBase` models the supply of fresh UUIDs: the
new plan takes `freshBase`, the k-th copied category `freshBase + 1 + k`,
then the items, then the notes. -/
def duplicatePlan (db : DB) (userId planId freshBase : Nat) :
    Except RepoError (BudgetPlan × DB) :=
  match db.plans.find? (fun p => p.id == planId && p.userId == userId) with
  | none => .error .notFound
  | some original =>
    match copyItems (dupCategoryMap db planId freshBase) (dupOldItems db planId)
        (dupItemBase db planId freshBase) with
    | .error e => .error e
    | .ok newItems =>
      .ok (dupNewPlan original freshBase,
           dupDb db planId freshBase original newItems)

/-- All ids and foreign keys in the snapshot lie below `n` (so ids from `n`
upward are fresh). -/
def DB.idsBelow (db : DB) (n : Nat) : Prop :=
  (∀ p ∈ db.plans, p.id < n) ∧
  (∀ c ∈ db.categories, c.id < n ∧ c.planId < n) ∧
  (∀ i ∈ db.items, i.id < n ∧ i.categoryId < n) ∧
  (∀ x ∈ db.notes, x.id < n ∧ x.planId < n)

instance (db : DB) (n : Nat) : Decidable (db.idsBelow n) := by
  unfold DB.idsBelow; infer_instance

/-- Demo plan with a ceiling of 1000 minor units, owned by user 1. -/
def demoPlan : BudgetPlan :=
  { id := 10, userId := 1, title := "Demo", budgetCents := 1000,
    periodStart := 0, periodEnd := 30, backgroundColor := "#FFFFFF",
    isAIGenerated := false }

/-- Demo category of the demo plan. -/
def demoCategory : ExpenseCategory :=
  { id := 100, planId := 10, title := "Food", categoryType := .mandatory,
    sortOrder := 0 }

/-- An incomplete item of amount 600 in the demo category. -/
def demoItem600 : ExpenseItem :=
  { id := 1000, categoryId := 100, title := "Groceries", amountCents := 600,
    priorityColor := .red, isCompleted := false, sortOrder := 0, updatedAt := 0 }

/-- A completed item of amount 400 in the demo category. -/
def demoItem400 : ExpenseItem :=
  { id := 1001, categoryId := 100, title := "Transport", amountCents := 400,
    priorityColor := .green, isCompleted := true, sortOrder := 1, updatedAt := 0 }

/-- Snapshot with the demo plan and the single incomplete item of 600. -/
def demoDb : DB :=
  { plans := [demoPlan], categories := [demoCategory],
    items := [demoItem600], notes := [] }

/-- Snapshot with the demo plan, the incomplete item of 600 and the
completed item of 400. -/
def demoDb2 : DB :=
  { plans := [demoPlan], categories := [demoCategory],
    items := [demoItem600, demoItem400], notes := [] }

/-- First demo note of the demo plan. -/
def demoNote0 : Note :=
  { id := 500, planId := 10, content := "alpha", noteType := .user, sortOrder := 0 }

/-- Second demo note of the demo plan. -/
def demoNote1 : Note :=
  { id := 501, planId := 10, content := "beta", noteType := .ai, sortOrder := 1 }

/-- Demo snapshot with two items and two notes under the demo plan. -/
def demoDb3 : DB :=
  { plans := [demoPlan], categories := [demoCategory],
    items := [demoItem600, demoItem400], notes := [demoNote0, demoNote1] }

/-- The demo snapshot after reordering the two items to [1001, 1000]. -/
def demoDb3ItemsSwapped : DB :=
  { demoDb3 with items := [{ demoItem600 with sortOrder := 1 },
                           { demoItem400 with sortOrder := 0 }] }

/-- The demo snapshot after reordering the two notes to [501, 500]. -/
def demoDb3NotesSwapped : DB :=
  { demoDb3 with notes := [{ demoNote0 with sortOrder := 1 },
                           { demoNote1 with sortOrder := 0 }] }

/-- A second demo category of the demo plan. -/
def demoCategory2 : ExpenseCategory :=
  { id := 101, planId := 10, title := "Fun", categoryType := .optional,
    sortOrder := 1 }

/-- An item in the second demo category. -/
def demoItem250 : ExpenseItem :=
  { id := 1002, categoryId := 101, title := "Cinema", amountCents := 250,
    priorityColor := .yellow, isCompleted := false, sortOrder := 0,
    updatedAt := 0 }

/-- Demo snapshot for plan duplication: one plan, two categories, three
items, one note. -/
def demoDb4 : DB :=
  { plans := [demoPlan], categories := [demoCategory, demoCategory2],
    items := [demoItem600, demoItem400, demoItem250], notes := [demoNote0] }

end Budget

namespace Budget

/-- Decidable equality of `Except` results, so concrete runs can be settled
by `decide`. -/
instance {e a : Type} [DecidableEq e] [DecidableEq a] :
    DecidableEq (Except e a) := fun x y =>
  match x, y with
  | .ok v, .ok w =>
    if h : v = w then isTrue (by rw [h]) else isFalse (by simp [h])
  | .error v, .error w =>
    if h : v = w then isTrue (by rw [h]) else isFalse (by simp [h])
  | .ok _, .error _ => isFalse (by simp)
  | .error _, .ok _ => isFalse (by simp)

/-- The row inserted by a successful `ItemRepository.Create`. -/
def newItemRow (db : DB) (categoryId : Nat) (title : String) (amountCents : Int)
    (priorityColor : PriorityColor) (isCompleted : Bool) (newId now : Nat) :
    ExpenseItem :=
  { id := newId, categoryId := categoryId, title := title,
    amountCents := amountCents, priorityColor := priorityColor,
    isCompleted := isCompleted,
    sortOrder := ((db.items.filter (fun i => i.categoryId == categoryId)).map
      (·.sortOrder)).foldl max (-1) + 1,
    updatedAt := now }

/-- Shape of `itemCreate` once the plan lock and the category check have
succeeded: everything reduces to the budget comparison. -/
theorem itemCreate_eq_of_found (db : DB) (userId planId categoryId : Nat)
    (title : String) (amountCents : Int) (color : PriorityColor)
    (completed : Bool) (newId now : Nat) (p : BudgetPlan)
    (hp : db.plans.find? (fun q => q.id == planId && q.userId == userId) = some p)
    (hc : (db.categories.any (fun c => c.id == categoryId && c.planId == planId)) = true) :
    itemCreate db userId planId categoryId title amountCents color completed newId now =
      if sumPlanAmount db planId + amountCents > p.budgetCents then
        .error .budgetExceeded
      else
        .ok (newItemRow db categoryId title amountCents color completed newId now,
          { db with items := db.items ++
              [newItemRow db categoryId title amountCents color completed newId now] }) := by
  unfold itemCreate lockPlanBudget ensureCategoryInPlan
  rw [hp, hc]
  rfl

/-- Decompose a successful `findItemPlan` into the three underlying row
lookups. -/
theorem findItemPlan_eq (db : DB) (userId itemId : Nat) (i : ExpenseItem)
    (c : ExpenseCategory) (p : BudgetPlan)
    (h : findItemPlan db userId itemId = some (i, c, p)) :
    db.items.find? (fun j => j.id == itemId) = some i ∧
    db.categories.find? (fun q => q.id == i.categoryId) = some c ∧
    db.plans.find? (fun q => q.id == c.planId && q.userId == userId) = some p := by
  unfold findItemPlan at h
  split at h
  · exact absurd h (by simp)
  next i0 h1 =>
    split at h
    · exact absurd h (by simp)
    next c0 h2 =>
      split at h
      · exact absurd h (by simp)
      next p0 h3 =>
        simp only [Option.some.injEq, Prod.mk.injEq] at h
        obtain ⟨hi, hc, hp⟩ := h
        subst hi; subst hc; subst hp
        exact ⟨h1, h2, h3⟩

/-- C1: given an owned plan and a category of that plan, `ItemRepository.Create`
fails with `ErrBudgetExceeded` exactly when the plan-wide total of all items'
amounts plus the new amount exceeds the ceiling (regardless of any completed
flag); when it does not exceed, the create succeeds and the plan total grows by
the new amount.  Likewise `ItemRepository.Update` on an owned item fails with
`ErrBudgetExceeded` exactly when `currentTotal - oldAmount + newAmount` exceeds
the ceiling. -/
theorem budget_write_check_iff
    (db : DB) (userId planId categoryId : Nat) (title : String)
    (amountCents : Int) (color : PriorityColor) (completed : Bool)
    (newId now : Nat) (p : BudgetPlan)
    (hp : db.plans.find? (fun q => q.id == planId && q.userId == userId) = some p)
    (hc : (db.categories.any (fun c => c.id == categoryId && c.planId == planId)) = true) :
    (itemCreate db userId planId categoryId title amountCents color completed newId now =
        .error .budgetExceeded ↔ sumPlanAmount db planId + amountCents > p.budgetCents)
    ∧ (sumPlanAmount db planId + amountCents ≤ p.budgetCents →
        ∃ item db',
          itemCreate db userId planId categoryId title amountCents color completed newId now =
            .ok (item, db') ∧
          sumPlanAmount db' planId = sumPlanAmount db planId + amountCents)
    ∧ (∀ (itemId : Nat) (i : ExpenseItem) (c : ExpenseCategory) (p' : BudgetPlan)
         (title' : String) (amount' : Int) (color' : PriorityColor) (now' : Nat),
        findItemPlan db userId itemId = some (i, c, p') →
        (itemUpdate db userId itemId title' amount' color' now' = .error .budgetExceeded ↔
          sumPlanAmount db p'.id - i.amountCents + amount' > p'.budgetCents)) := by
  rw [itemCreate_eq_of_found db userId planId categoryId title amountCents color
    completed newId now p hp hc]
  refine ⟨?_, ?_, ?_⟩
  · by_cases h : sumPlanAmount db planId + amountCents > p.budgetCents
    · simp [h]
    · simp [h]
  · intro h
    have hgt : ¬ (sumPlanAmount db planId + amountCents > p.budgetCents) := by omega
    rw [if_neg hgt]
    refine ⟨_, _, rfl, ?_⟩
    simp only [sumPlanAmount]
    have hcat : ∀ l, itemInPlan { db with items := l } planId =
        itemInPlan db planId := fun _ => rfl
    simp only [hcat]
    rw [List.filter_append]
    simp [itemInPlan, newItemRow, hc]
  · intro itemId i c p' title' amount' color' now' hf
    by_cases h : sumPlanAmount db p'.id - i.amountCents + amount' > p'.budgetCents
    · simp [itemUpdate, hf, h]
    · simp [itemUpdate, hf, h]

/-- Witness for C1 at the concrete P3 scenario: with a ceiling of 1000 and an
existing item of 600, creating an item of 500 fails with `BudgetExceeded`,
creating one of 400 succeeds and the total item amount becomes 1000. -/
theorem budget_write_check_iff_witness :
    itemCreate demoDb 1 10 100 "Extra" 500 .red false 99 7 =
        .error .budgetExceeded
    ∧ ∃ item db',
        itemCreate demoDb 1 10 100 "Extra" 400 .red false 99 7 = .ok (item, db') ∧
        sumPlanAmount db' 10 = 1000 := by
  have h500 := budget_write_check_iff demoDb 1 10 100 "Extra" 500 .red false 99 7
    demoPlan (by decide) (by decide)
  have h400 := budget_write_check_iff demoDb 1 10 100 "Extra" 400 .red false 99 7
    demoPlan (by decide) (by decide)
  refine ⟨h500.1.mpr (by decide), ?_⟩
  obtain ⟨item, db', hok, hsum⟩ := h400.2.1 (by decide)
  exact ⟨item, db', hok, by rw [hsum]; decide⟩

/-- Helper: summing `CASE WHEN is_completed THEN amount ELSE 0 END` over a
filtered row list equals summing amounts after first keeping only completed
rows. -/
theorem sum_ite_completed_eq_filter (P : ExpenseItem → Bool) :
    ∀ l : List ExpenseItem,
      ((l.filter P).map (fun i => if i.isCompleted then i.amountCents else 0)).sum =
      (((l.filter (·.isCompleted)).filter P).map (·.amountCents)).sum := by
  intro l
  induction l with
  | nil => rfl
  | cons a l ih =>
    by_cases hP : P a <;> by_cases hCmp : a.isCompleted <;>
      simp [List.filter_cons, hP, hCmp, ih]

/-- C2: the write-time total `sumPlanAmount` sums every item of the plan while
`GetSpentCents` sums only completed items: restricting the item table to
completed rows turns one into the other.  Concretely, with an incomplete item
of 600 and a completed item of 400 under a ceiling of 1000, `GetSpentCents`
returns 400, the write-time total is 1000, and creating even a 1-cent item is
rejected with `BudgetExceeded` although only 400 is "spent". -/
theorem spent_vs_write_total_asymmetry :
    (∀ (db : DB) (planId : Nat),
      getSpentCents db planId =
        .ok (sumPlanAmount { db with items := db.items.filter (·.isCompleted) } planId))
    ∧ getSpentCents demoDb2 10 = .ok 400
    ∧ sumPlanAmount demoDb2 10 = 1000
    ∧ itemCreate demoDb2 1 10 100 "Tiny" 1 .red false 99 7 =
        .error .budgetExceeded := by
  refine ⟨?_, by decide, by decide, by decide⟩
  intro db planId
  simp only [getSpentCents, sumPlanAmount]
  have hcat : itemInPlan { db with items := db.items.filter (·.isCompleted) } planId =
      itemInPlan db planId := rfl
  rw [hcat, sum_ite_completed_eq_filter]

/-- C9: `ItemRepository.Toggle` never runs the budget check — it can never
return `ErrBudgetExceeded` — and on an owned item it succeeds, changing only
that item's `is_completed` flag (to the supplied value, or its negation when
none is supplied) and `updated_at`, while the item's amount, position, title,
color and identity, every other item, and the plan / category / note tables
are all left unchanged. -/
theorem toggle_skips_budget_check :
    (∀ (db : DB) (userId itemId : Nat) (v : Option Bool) (now : Nat),
        itemToggle db userId itemId v now ≠ .error .budgetExceeded)
    ∧ (∀ (db : DB) (userId itemId : Nat) (v : Option Bool) (now : Nat)
         (i : ExpenseItem) (c : ExpenseCategory) (p : BudgetPlan),
        findItemPlan db userId itemId = some (i, c, p) →
        ∃ item db',
          itemToggle db userId itemId v now = .ok (item, db') ∧
          item.isCompleted = (match v with | none => !i.isCompleted | some b => b) ∧
          item.amountCents = i.amountCents ∧ item.sortOrder = i.sortOrder ∧
          item.title = i.title ∧ item.priorityColor = i.priorityColor ∧
          item.categoryId = i.categoryId ∧ item.id = i.id ∧ item.updatedAt = now ∧
          db'.plans = db.plans ∧ db'.categories = db.categories ∧
          db'.notes = db.notes ∧
          (∀ j ∈ db.items, (j.id == itemId) = false → j ∈ db'.items) ∧
          db'.items = db.items.map (fun j =>
            if j.id == itemId then { j with isCompleted := item.isCompleted,
                                            updatedAt := now }
            else j)) := by
  constructor
  · intro db userId itemId v now
    unfold itemToggle
    cases h : findItemPlan db userId itemId with
    | none => simp
    | some t => simp
  · intro db userId itemId v now i c p hf
    have hfind := (findItemPlan_eq db userId itemId i c p hf).1
    have hideq : i.id = itemId := by simpa using List.find?_some hfind
    have hid : (i.id == itemId) = true := by simp [hideq]
    refine ⟨{ i with isCompleted := (match v with | none => !i.isCompleted | some b => b),
                     updatedAt := now },
            { db with items := db.items.map (fun j =>
                if j.id == itemId then
                  { j with isCompleted :=
                      (match v with | none => !i.isCompleted | some b => b),
                           updatedAt := now }
                else j) },
            ?_, rfl, rfl, rfl, rfl, rfl, rfl, rfl, rfl, rfl, rfl, rfl, ?_, rfl⟩
    · simp [itemToggle, hf, hid]
    · intro j hj hne
      simp only [List.mem_map]
      exact ⟨j, hj, by simp [hne]⟩

/-- Witness for C9 at a concrete toggle: flipping the incomplete 600 item of
the demo plan (no explicit value supplied) succeeds without `BudgetExceeded`
and sets the flag. -/
theorem toggle_skips_budget_check_witness :
    itemToggle demoDb 1 1000 none 7 ≠ .error .budgetExceeded
    ∧ ∃ item db', itemToggle demoDb 1 1000 none 7 = .ok (item, db') ∧
        item.isCompleted = true := by
  refine ⟨toggle_skips_budget_check.1 demoDb 1 1000 none 7, ?_⟩
  obtain ⟨item, db', hok, hflag, -⟩ :=
    toggle_skips_budget_check.2 demoDb 1 1000 none 7 demoItem600 demoCategory
      demoPlan (by decide)
  exact ⟨item, db', hok, by rw [hflag]; decide⟩


/-- Index of the k-th element of a duplicate-free list is k. -/
theorem nodup_indexOf_get :
    ∀ (l : List Nat) (k : Nat) (hk : k < l.length), l.Nodup →
      l.indexOf (l.get ⟨k, hk⟩) = k := by
  intro l
  induction l with
  | nil => intro k hk; simp at hk
  | cons a t ih =>
    intro k hk hnd
    cases k with
    | zero => simp [List.indexOf_cons]
    | succ k =>
      have hmem : t.get ⟨k, Nat.lt_of_succ_lt_succ hk⟩ ∈ t := t.get_mem _ _
      have hne : (a == t.get ⟨k, Nat.lt_of_succ_lt_succ hk⟩) = false := by
        have := (List.nodup_cons.mp hnd).1
        simp only [beq_eq_false_iff_ne, ne_eq]
        intro hcontra
        exact this (hcontra ▸ hmem)
      simp only [List.get_cons_succ, List.indexOf_cons, hne, cond_false]
      rw [ih k (Nat.lt_of_succ_lt_succ hk) (List.nodup_cons.mp hnd).2]

/-- An element's position found by `indexOf` reads back to the element. -/
theorem indexOf_get_self :
    ∀ (l : List Nat) (x : Nat), x ∈ l → ∀ (hk : l.indexOf x < l.length),
      l.get ⟨l.indexOf x, hk⟩ = x := by
  intro l
  induction l with
  | nil => intro x hx; simp at hx
  | cons a t ih =>
    intro x hx hk
    by_cases hax : (a == x) = true
    · simp only [List.indexOf_cons, hax, cond_true]
      simp only [beq_iff_eq] at hax
      simp [hax]
    · simp only [List.indexOf_cons, hax, cond_false] at hk ⊢
      have hxt : x ∈ t := by
        cases List.mem_cons.mp hx with
        | inl h => exact absurd (by simp [h]) hax
        | inr h => exact h
      simp only [List.get_cons_succ]
      exact ih x hxt (Nat.lt_of_succ_lt_succ hk)

/-- Membership gives a bounded `indexOf`. -/
theorem indexOf_lt_length_of_mem :
    ∀ (l : List Nat) (x : Nat), x ∈ l → l.indexOf x < l.length := by
  intro l
  induction l with
  | nil => intro x hx; simp at hx
  | cons a t ih =>
    intro x hx
    by_cases hax : (a == x) = true
    · simp [List.indexOf_cons, hax]
    · simp only [List.indexOf_cons, hax, cond_false, List.length_cons]
      have hxt : x ∈ t := by
        cases List.mem_cons.mp hx with
        | inl h => exact absurd (by simp [h]) hax
        | inr h => exact h
      exact Nat.succ_lt_succ (ih x hxt)

/-- Invert a successful run of the reorder core into its two passed count
checks and the updated row list. -/
theorem reorderCore_ok_inv {r : Type} {getId : r → Nat} {inParent : r → Bool}
    {setOrder : r → Int → r} {rows : List r} {ids : List Nat} {e : RepoError}
    {rows' : List r}
    (h : reorderCore getId inParent setOrder rows ids e = .ok rows') :
    (rows.filter (fun x => inParent x && ids.contains (getId x))).length = ids.length ∧
    (rows.filter (fun x => inParent x)).length = ids.length ∧
    rows' = rows.map (fun x =>
      if inParent x && ids.contains (getId x) then
        setOrder x (Int.ofNat (ids.indexOf (getId x)))
      else x) := by
  unfold reorderCore at h
  split at h
  · exact absurd h (by simp)
  next h1 =>
    split at h
    · exact absurd h (by simp)
    next h2 =>
      simp only [Except.ok.injEq] at h
      exact ⟨not_not.mp h1, not_not.mp h2, h.symm⟩

/-- When both count checks of the reorder core pass over children with
pairwise-distinct ids, every child's id is in the supplied list, the
children's ids are a permutation of the list, and the list is
duplicate-free. -/
theorem reorderCore_checks {r : Type} {getId : r → Nat} {inParent : r → Bool}
    {rows : List r} {ids : List Nat}
    (hNodup : ((rows.filter (fun x => inParent x)).map getId).Nodup)
    (hcount : (rows.filter (fun x => inParent x && ids.contains (getId x))).length
      = ids.length)
    (htotal : (rows.filter (fun x => inParent x)).length = ids.length) :
    (∀ x ∈ rows.filter (fun x => inParent x), ids.contains (getId x) = true) ∧
    ((rows.filter (fun x => inParent x)).map getId).Perm ids ∧ ids.Nodup := by
  have hsplit : rows.filter (fun x => inParent x && ids.contains (getId x)) =
      (rows.filter (fun x => inParent x)).filter (fun x => ids.contains (getId x)) := by
    rw [List.filter_filter]
    exact List.filter_congr (fun a _ => by rw [Bool.and_comm])
  have hsub : List.Sublist ((rows.filter (fun x => inParent x)).filter
      (fun x => ids.contains (getId x))) (rows.filter (fun x => inParent x)) :=
    List.filter_sublist _
  have heq : (rows.filter (fun x => inParent x)).filter
      (fun x => ids.contains (getId x)) = rows.filter (fun x => inParent x) :=
    hsub.eq_of_length (by rw [← hsplit, hcount, htotal])
  have hall := List.filter_eq_self.mp heq
  have hsubset : ((rows.filter (fun x => inParent x)).map getId) ⊆ ids := by
    intro y hy
    obtain ⟨x, hx, hxy⟩ := List.mem_map.mp hy
    have hcont := hall x hx
    rw [← hxy]
    simpa using hcont
  have hperm : ((rows.filter (fun x => inParent x)).map getId).Perm ids :=
    (hNodup.subperm hsubset).perm_of_length_le (by simp [htotal])
  exact ⟨hall, hperm, hperm.nodup_iff.mp hNodup⟩

/-- A successful reorder core run satisfies the readback contract
`ReorderSpec` on the updated children. -/
theorem reorderCore_ok_spec {r : Type} (getId : r → Nat) (inParent : r → Bool)
    (getOrder : r → Int) (setOrder : r → Int → r)
    (hId : ∀ x o, getId (setOrder x o) = getId x)
    (hPar : ∀ x o, inParent (setOrder x o) = inParent x)
    (hOrd : ∀ x o, getOrder (setOrder x o) = o)
    {rows : List r} {ids : List Nat} {e : RepoError} {rows' : List r}
    (hNodup : ((rows.filter (fun x => inParent x)).map getId).Nodup)
    (h : reorderCore getId inParent setOrder rows ids e = .ok rows') :
    ReorderSpec (rows'.filter (fun x => inParent x)) getId getOrder ids := by
  obtain ⟨hcount, htotal, hrows'⟩ := reorderCore_ok_inv h
  obtain ⟨hall, hperm, hnodupIds⟩ := reorderCore_checks hNodup hcount htotal
  have hpres : ∀ x, inParent (if inParent x && ids.contains (getId x) then
      setOrder x (Int.ofNat (ids.indexOf (getId x))) else x) = inParent x := by
    intro x
    by_cases hc : (inParent x && ids.contains (getId x)) = true
    · rw [if_pos hc, hPar]
    · rw [if_neg hc]
  have hchildren : rows'.filter (fun x => inParent x) =
      (rows.filter (fun x => inParent x)).map
        (fun x => setOrder x (Int.ofNat (ids.indexOf (getId x)))) := by
    rw [hrows', List.filter_map]
    have step1 : List.filter ((fun x => inParent x) ∘
        (fun x => if inParent x && ids.contains (getId x) then
          setOrder x (Int.ofNat (ids.indexOf (getId x))) else x)) rows =
        List.filter (fun x => inParent x) rows :=
      List.filter_congr (fun a _ => hpres a)
    rw [step1]
    exact List.map_congr_left (fun a ha => by
      have hmem := List.mem_filter.mp ha
      have hca : getId a ∈ ids := by simpa using hall a ha
      have hc : (inParent a && ids.contains (getId a)) = true := by
        simp [hmem.2, hca]
      rw [if_pos hc])
  refine ⟨hnodupIds, ?_, ?_, ?_⟩
  · rw [hchildren, List.map_map]
    have hcomp : (getId ∘ fun x => setOrder x (Int.ofNat (ids.indexOf (getId x))))
        = getId := funext (fun x => hId x _)
    rw [hcomp]
    exact hperm
  · intro x hx
    rw [hchildren] at hx
    obtain ⟨y, hy, hyx⟩ := List.mem_map.mp hx
    subst hyx
    refine ⟨by rw [hOrd, hId], ?_⟩
    rw [hId]
    simpa using hall y hy
  · intro k hk
    have hidk : ids.get ⟨k, hk⟩ ∈ ((rows.filter (fun x => inParent x)).map getId) :=
      hperm.mem_iff.mpr (ids.get_mem _ _)
    obtain ⟨y, hy, hyk⟩ := List.mem_map.mp hidk
    have hmem' : setOrder y (Int.ofNat (ids.indexOf (getId y))) ∈
        rows'.filter (fun x => inParent x) := by
      rw [hchildren]
      exact List.mem_map.mpr ⟨y, hy, rfl⟩
    have hidxy : ids.indexOf (getId y) = k := by
      rw [hyk]
      exact nodup_indexOf_get ids k hk hnodupIds
    have hsat : (fun y0 => getOrder y0 == Int.ofNat k)
        (setOrder y (Int.ofNat (ids.indexOf (getId y)))) = true := by
      simp [hOrd, hidxy]
    have hisSome : ((rows'.filter (fun x => inParent x)).find?
        (fun y0 => getOrder y0 == Int.ofNat k)).isSome :=
      List.find?_isSome.mpr ⟨_, hmem', hsat⟩
    obtain ⟨x, hfx⟩ := Option.isSome_iff_exists.mp hisSome
    refine ⟨x, hfx, ?_⟩
    have hxmem := List.mem_of_find?_eq_some hfx
    have hxord : getOrder x = Int.ofNat k := by
      simpa using List.find?_some hfx
    rw [hchildren] at hxmem
    obtain ⟨z, hz, hzx⟩ := List.mem_map.mp hxmem
    subst hzx
    rw [hOrd] at hxord
    have hidxz : ids.indexOf (getId z) = k := Int.ofNat.inj hxord
    have hzmem : getId z ∈ ids := by simpa using hall z hz
    have hklt : ids.indexOf (getId z) < ids.length :=
      indexOf_lt_length_of_mem ids (getId z) hzmem
    have hget : ids.get ⟨ids.indexOf (getId z), hklt⟩ = getId z :=
      indexOf_get_self ids (getId z) hzmem hklt
    rw [hId]
    rw [← hget]
    congr 1
    exact Fin.ext hidxz


/-- Invert a committing `withItems`. -/
theorem withItems_ok {db : DB} {res : Except RepoError (List ExpenseItem)}
    {db' : DB} (h : withItems db res = .ok db') :
    res = .ok db'.items ∧ db'.plans = db.plans ∧ db'.categories = db.categories ∧
    db'.notes = db.notes := by
  cases res with
  | error e => simp [withItems] at h
  | ok l =>
    simp only [withItems, Except.ok.injEq] at h
    subst h
    exact ⟨rfl, rfl, rfl, rfl⟩

/-- Invert a committing `withNotes`. -/
theorem withNotes_ok {db : DB} {res : Except RepoError (List Note)}
    {db' : DB} (h : withNotes db res = .ok db') :
    res = .ok db'.notes ∧ db'.plans = db.plans ∧ db'.categories = db.categories ∧
    db'.items = db.items := by
  cases res with
  | error e => simp [withNotes] at h
  | ok l =>
    simp only [withNotes, Except.ok.injEq] at h
    subst h
    exact ⟨rfl, rfl, rfl, rfl⟩

/-- Invert a committing `withCategories`. -/
theorem withCategories_ok {db : DB} {res : Except RepoError (List ExpenseCategory)}
    {db' : DB} (h : withCategories db res = .ok db') :
    res = .ok db'.categories ∧ db'.plans = db.plans ∧ db'.items = db.items ∧
    db'.notes = db.notes := by
  cases res with
  | error e => simp [withCategories] at h
  | ok l =>
    simp only [withCategories, Except.ok.injEq] at h
    subst h
    exact ⟨rfl, rfl, rfl, rfl⟩

/-- Invert a successful `itemReorder` given its anchor resolution. -/
theorem itemReorder_ok_inv {db : DB} {userId anchorId : Nat} {ids : List Nat}
    {db' : DB} {i : ExpenseItem} {c : ExpenseCategory} {p : BudgetPlan}
    (hf : findItemPlan db userId anchorId = some (i, c, p))
    (h : itemReorder db userId anchorId ids = .ok db') :
    reorderCore (·.id) (fun x => x.categoryId == c.id)
      (fun x o => { x with sortOrder := o }) db.items ids .invalid = .ok db'.items := by
  unfold itemReorder at h
  by_cases hlen : ids.length = 0
  · rw [if_pos hlen] at h
    exact absurd h (by simp)
  · rw [if_neg hlen, hf] at h
    have h' : withItems db (reorderCore (·.id) (fun x => x.categoryId == c.id)
        (fun x o => { x with sortOrder := o }) db.items ids .invalid) = .ok db' := h
    exact (withItems_ok h').1

/-- Invert a successful `noteReorder` given its anchor resolution. -/
theorem noteReorder_ok_inv {db : DB} {userId anchorId planId : Nat}
    {ids : List Nat} {db' : DB}
    (hf : findNotePlan db userId anchorId = some planId)
    (h : noteReorder db userId anchorId ids = .ok db') :
    reorderCore (·.id) (fun n => n.planId == planId)
      (fun n o => { n with sortOrder := o }) db.notes ids .invalid = .ok db'.notes := by
  unfold noteReorder at h
  by_cases hlen : ids.length = 0
  · rw [if_pos hlen] at h
    exact absurd h (by simp)
  · rw [if_neg hlen, hf] at h
    have h' : withNotes db (reorderCore (·.id) (fun n => n.planId == planId)
        (fun n o => { n with sortOrder := o }) db.notes ids .invalid) = .ok db' := h
    exact (withNotes_ok h').1

/-- Invert a successful `reorderCategories`. -/
theorem reorderCategories_ok_inv {db : DB} {userId planId : Nat}
    {ids : List Nat} {db' : DB}
    (h : reorderCategories db userId planId ids = .ok db') :
    reorderCore (·.id) (fun c => c.planId == planId)
      (fun c o => { c with sortOrder := o }) db.categories ids .notFound
      = .ok db'.categories := by
  unfold reorderCategories at h
  by_cases hown : (db.plans.any (fun p => p.id == planId && p.userId == userId)) = true
  · rw [if_pos hown] at h
    have h' : withCategories db (reorderCore (·.id) (fun c => c.planId == planId)
        (fun c o => { c with sortOrder := o }) db.categories ids .notFound)
        = .ok db' := h
    exact (withCategories_ok h').1
  · rw [if_neg hown] at h
    exact absurd h (by simp)

/-- Pairwise-distinct ids survive the parent filter. -/
theorem nodup_filtered_ids {r : Type} (getId : r → Nat) (inParent : r → Bool)
    {rows : List r} (h : (rows.map getId).Nodup) :
    ((rows.filter (fun x => inParent x)).map getId).Nodup :=
  h.sublist ((List.filter_sublist rows).map getId)

/-- The reorder core rejects a list that omits a live child or contains a
foreign id, with `ErrInvalid`. -/
theorem reorderCore_bad {r : Type} {getId : r → Nat} {inParent : r → Bool}
    {setOrder : r → Int → r} {rows : List r} {ids : List Nat} {e : RepoError}
    (hNodup : ((rows.filter (fun x => inParent x)).map getId).Nodup)
    (hbad : (∃ x ∈ rows, inParent x = true ∧ getId x ∉ ids) ∨
            (∃ y ∈ ids, ∀ x ∈ rows, inParent x = true → getId x ≠ y)) :
    reorderCore getId inParent setOrder rows ids e = .error .invalid := by
  unfold reorderCore
  by_cases h1 : (rows.filter (fun x => inParent x && ids.contains (getId x))).length
      ≠ ids.length
  · rw [if_pos h1]
  · rw [if_neg h1]
    by_cases h2 : (rows.filter (fun x => inParent x)).length ≠ ids.length
    · rw [if_pos h2]
    · exfalso
      obtain ⟨hall, hperm, _⟩ :=
        reorderCore_checks hNodup (not_not.mp h1) (not_not.mp h2)
      rcases hbad with ⟨x, hx, hxp, hxn⟩ | ⟨y, hy, hforeign⟩
      · have hc := hall x (List.mem_filter.mpr ⟨hx, hxp⟩)
        exact hxn (by simpa using hc)
      · have hym : y ∈ (rows.filter (fun x => inParent x)).map getId :=
          hperm.mem_iff.mpr hy
        obtain ⟨x, hx, hxy⟩ := List.mem_map.mp hym
        have hmem := List.mem_filter.mp hx
        exact hforeign x hmem.1 hmem.2 hxy

/-- C3: after any successful Reorder Protocol call — on the items of a
category, the notes of a plan, or the categories of a plan — every child of
the resolved parent carries sort position = the 0-based index of its id in
the supplied full list, and reading the children back ordered by position
yields exactly the supplied id sequence with positions 0..N−1, no gaps and
no duplicates (the `ReorderSpec` contract). -/
theorem reorder_assigns_list_indices :
    (∀ (db : DB) (userId anchorId : Nat) (ids : List Nat) (db' : DB)
       (i : ExpenseItem) (c : ExpenseCategory) (p : BudgetPlan),
      db.WF →
      findItemPlan db userId anchorId = some (i, c, p) →
      itemReorder db userId anchorId ids = .ok db' →
      ReorderSpec (db'.items.filter (fun x => x.categoryId == c.id))
        (·.id) (·.sortOrder) ids)
    ∧ (∀ (db : DB) (userId anchorId planId : Nat) (ids : List Nat) (db' : DB),
      db.WF →
      findNotePlan db userId anchorId = some planId →
      noteReorder db userId anchorId ids = .ok db' →
      ReorderSpec (db'.notes.filter (fun n => n.planId == planId))
        (·.id) (·.sortOrder) ids)
    ∧ (∀ (db : DB) (userId planId : Nat) (ids : List Nat) (db' : DB),
      db.WF →
      reorderCategories db userId planId ids = .ok db' →
      ReorderSpec (db'.categories.filter (fun c => c.planId == planId))
        (·.id) (·.sortOrder) ids) := by
  refine ⟨?_, ?_, ?_⟩
  · intro db userId anchorId ids db' i c p hwf hf h
    exact reorderCore_ok_spec (fun x : ExpenseItem => x.id)
      (fun x => x.categoryId == c.id)
      (fun x : ExpenseItem => x.sortOrder) (fun x o => { x with sortOrder := o })
      (fun x o => rfl) (fun x o => rfl) (fun x o => rfl)
      (nodup_filtered_ids _ _ hwf.2.2.1) (itemReorder_ok_inv hf h)
  · intro db userId anchorId planId ids db' hwf hf h
    exact reorderCore_ok_spec (fun n : Note => n.id)
      (fun n => n.planId == planId)
      (fun n : Note => n.sortOrder) (fun n o => { n with sortOrder := o })
      (fun x o => rfl) (fun x o => rfl) (fun x o => rfl)
      (nodup_filtered_ids _ _ hwf.2.2.2) (noteReorder_ok_inv hf h)
  · intro db userId planId ids db' hwf h
    exact reorderCore_ok_spec (fun c : ExpenseCategory => c.id)
      (fun c => c.planId == planId)
      (fun c : ExpenseCategory => c.sortOrder)
      (fun c o => { c with sortOrder := o })
      (fun x o => rfl) (fun x o => rfl) (fun x o => rfl)
      (nodup_filtered_ids _ _ hwf.2.1) (reorderCategories_ok_inv h)

/-- Witness for C3: swapping the two demo items, the two demo notes, and
re-listing the single demo category each succeed and satisfy the readback
contract. -/
theorem reorder_assigns_list_indices_witness :
    (itemReorder demoDb3 1 1000 [1001, 1000] = .ok demoDb3ItemsSwapped ∧
      ReorderSpec (demoDb3ItemsSwapped.items.filter
        (fun x => x.categoryId == demoCategory.id)) (·.id) (·.sortOrder)
        [1001, 1000])
    ∧ (noteReorder demoDb3 1 500 [501, 500] = .ok demoDb3NotesSwapped ∧
      ReorderSpec (demoDb3NotesSwapped.notes.filter
        (fun n => n.planId == 10)) (·.id) (·.sortOrder) [501, 500])
    ∧ (reorderCategories demoDb3 1 10 [100] = .ok demoDb3 ∧
      ReorderSpec (demoDb3.categories.filter
        (fun c => c.planId == 10)) (·.id) (·.sortOrder) [100]) := by
  refine ⟨⟨by decide, ?_⟩, ⟨by decide, ?_⟩, ⟨by decide, ?_⟩⟩
  · exact reorder_assigns_list_indices.1 demoDb3 1 1000 [1001, 1000]
      demoDb3ItemsSwapped demoItem600 demoCategory demoPlan (by decide)
      (by decide) (by decide)
  · exact reorder_assigns_list_indices.2.1 demoDb3 1 500 10 [501, 500]
      demoDb3NotesSwapped (by decide) (by decide) (by decide)
  · exact reorder_assigns_list_indices.2.2 demoDb3 1 10 [100] demoDb3
      (by decide) (by decide)

/-- C4: a Reorder Protocol call whose supplied id list omits at least one
live child of the resolved parent, or includes an id that is not a child of
that parent, fails with `ErrInvalid` in all three collection kinds.  The
error result stands for the rolled-back transaction: the snapshot is
unchanged, so every prior sort position survives. -/
theorem reorder_rejects_partial_lists :
    (∀ (db : DB) (userId anchorId : Nat) (ids : List Nat)
       (i : ExpenseItem) (c : ExpenseCategory) (p : BudgetPlan),
      db.WF →
      findItemPlan db userId anchorId = some (i, c, p) →
      ((∃ x ∈ db.items, (x.categoryId == c.id) = true ∧ x.id ∉ ids) ∨
       (∃ y ∈ ids, ∀ x ∈ db.items, (x.categoryId == c.id) = true → x.id ≠ y)) →
      itemReorder db userId anchorId ids = .error .invalid)
    ∧ (∀ (db : DB) (userId anchorId planId : Nat) (ids : List Nat),
      db.WF →
      findNotePlan db userId anchorId = some planId →
      ((∃ n ∈ db.notes, (n.planId == planId) = true ∧ n.id ∉ ids) ∨
       (∃ y ∈ ids, ∀ n ∈ db.notes, (n.planId == planId) = true → n.id ≠ y)) →
      noteReorder db userId anchorId ids = .error .invalid)
    ∧ (∀ (db : DB) (userId planId : Nat) (ids : List Nat),
      db.WF →
      (db.plans.any (fun p => p.id == planId && p.userId == userId)) = true →
      ((∃ c ∈ db.categories, (c.planId == planId) = true ∧ c.id ∉ ids) ∨
       (∃ y ∈ ids, ∀ c ∈ db.categories, (c.planId == planId) = true → c.id ≠ y)) →
      reorderCategories db userId planId ids = .error .invalid) := by
  refine ⟨?_, ?_, ?_⟩
  · intro db userId anchorId ids i c p hwf hf hbad
    unfold itemReorder
    by_cases hlen : ids.length = 0
    · rw [if_pos hlen]
    · rw [if_neg hlen, hf]
      show withItems db (reorderCore (·.id) (fun x => x.categoryId == c.id)
        (fun x o => { x with sortOrder := o }) db.items ids .invalid)
          = .error .invalid
      rw [reorderCore_bad (nodup_filtered_ids _ _ hwf.2.2.1) hbad]
      rfl
  · intro db userId anchorId planId ids hwf hf hbad
    unfold noteReorder
    by_cases hlen : ids.length = 0
    · rw [if_pos hlen]
    · rw [if_neg hlen, hf]
      show withNotes db (reorderCore (·.id) (fun n => n.planId == planId)
        (fun n o => { n with sortOrder := o }) db.notes ids .invalid)
          = .error .invalid
      rw [reorderCore_bad (nodup_filtered_ids _ _ hwf.2.2.2) hbad]
      rfl
  · intro db userId planId ids hwf hown hbad
    unfold reorderCategories
    rw [if_pos hown]
    show withCategories db (reorderCore (·.id) (fun c => c.planId == planId)
      (fun c o => { c with sortOrder := o }) db.categories ids .notFound)
        = .error .invalid
    rw [reorderCore_bad (nodup_filtered_ids _ _ hwf.2.1) hbad]
    rfl

/-- Witness for C4: omitting one of the two demo items, supplying a foreign
note id, and omitting the demo category each fail with `ErrInvalid`. -/
theorem reorder_rejects_partial_lists_witness :
    itemReorder demoDb3 1 1000 [1000] = .error .invalid
    ∧ noteReorder demoDb3 1 500 [500, 501, 999] = .error .invalid
    ∧ reorderCategories demoDb3 1 10 [777] = .error .invalid := by
  refine ⟨?_, ?_, ?_⟩
  · exact reorder_rejects_partial_lists.1 demoDb3 1 1000 [1000] demoItem600
      demoCategory demoPlan (by decide) (by decide)
      (Or.inl ⟨demoItem400, by decide, by decide, by decide⟩)
  · exact reorder_rejects_partial_lists.2.1 demoDb3 1 500 10 [500, 501, 999]
      (by decide) (by decide)
      (Or.inr ⟨999, by decide, by decide⟩)
  · exact reorder_rejects_partial_lists.2.2 demoDb3 1 10 [777]
      (by decide) (by decide)
      (Or.inl ⟨demoCategory, by decide, by decide, by decide⟩)


/-- Invert a successful `closeChan`: the channel existed, was open, and is
now marked closed. -/
theorem closeChan_some_inv {chans chans' : List Chan} {chId : Nat}
    (h : closeChan chans chId = some chans') :
    ∃ ch0, chans.find? (fun c => c.id == chId) = some ch0 ∧
      ch0.closed = false ∧
      chans' = chans.map (fun c =>
        if c.id == chId then { c with closed := true } else c) := by
  unfold closeChan at h
  split at h
  · exact absurd h (by simp)
  next ch0 hfind =>
    split at h
    · exact absurd h (by simp)
    next hcl =>
      simp only [Option.some.injEq] at h
      exact ⟨ch0, hfind, by simpa using hcl, h.symm⟩

/-- Closing the same channel again after a successful close panics. -/
theorem closeChan_after_close {chans chans' : List Chan} {chId : Nat}
    (h : closeChan chans chId = some chans') :
    closeChan chans' chId = none := by
  obtain ⟨ch0, hfind, hcl, hch⟩ := closeChan_some_inv h
  subst hch
  unfold closeChan
  have hpc : ((fun c : Chan => c.id == chId) ∘
      (fun c : Chan => if c.id == chId then { c with closed := true } else c))
      = (fun c : Chan => c.id == chId) := by
    funext c
    by_cases hc : c.id = chId
    · simp [hc]
    · simp [hc]
  rw [List.find?_map, hpc, hfind]
  have h0 := List.find?_some hfind
  have hid : ch0.id = chId := by simpa using h0
  simp [hid]

/-- C5 (evidence): the unsubscribe closure closes the channel
unconditionally — `close(ch)` sits outside the registry-existence guard —
so while the first call succeeds (registry entry removed, channel closed),
ANY second call on the same subscription closes an already-closed channel,
a Go runtime panic (`none`); it is not an idempotent no-op. -/
theorem double_unsubscribe_panics :
    hubUnsubscribe hubAfterSub 1 42 = some hubAfterUnsub
    ∧ hubUnsubscribe hubAfterUnsub 1 42 = none
    ∧ ∀ (h h2 : Hub) (userId chId : Nat),
        hubUnsubscribe h userId chId = some h2 →
        hubUnsubscribe h2 userId chId = none := by
  refine ⟨by decide, by decide, ?_⟩
  intro h h2 userId chId h1
  unfold hubUnsubscribe at h1
  split at h1
  · exact absurd h1 (by simp)
  next chans' hclose =>
    simp only [Option.some.injEq] at h1
    subst h1
    unfold hubUnsubscribe
    simp [closeChan_after_close hclose]

/-- Witness for C5's general part at the concrete double call. -/
theorem double_unsubscribe_panics_witness :
    hubUnsubscribe hubAfterUnsub 1 42 = none :=
  double_unsubscribe_panics.2.2 hubAfterSub hubAfterUnsub 1 42 (by decide)


/-- C6: `Hub.Publish` delivers the time-stamped event to every channel
registered for the target user that has buffer room — hence to each of a
user's several channels — while every channel not registered for that user
(in particular every other user's channels) keeps its exact state, and the
subscriber registry itself is unchanged. -/
theorem hub_publish_fanout (h : Hub) (userId : Nat) (e : Event) (now : Nat) :
    (hubPublish h userId e now).subscribers = h.subscribers
    ∧ (∀ ch ∈ h.chans, (regLookup h.subscribers userId).contains ch.id = false →
        ch ∈ (hubPublish h userId e now).chans)
    ∧ (∀ ch ∈ h.chans, (regLookup h.subscribers userId).contains ch.id = true →
        ch.buf.length < ch.capacity →
        { ch with buf := ch.buf ++ [{ e with timestamp := now }] } ∈
          (hubPublish h userId e now).chans) := by
  refine ⟨rfl, ?_, ?_⟩
  · intro ch hch hno
    have hno' : ch.id ∉ regLookup h.subscribers userId := by simpa using hno
    simp only [hubPublish, List.mem_map]
    exact ⟨ch, hch, by simp [hno']⟩
  · intro ch hch hyes hroom
    have hyes' : ch.id ∈ regLookup h.subscribers userId := by simpa using hyes
    simp only [hubPublish, List.mem_map]
    exact ⟨ch, hch, by simp [hyes', trySend, hroom]⟩

/-- Witness for C6 at the P6 scenario: user 1 has channels 10 and 11, user
2 has channel 20; publishing to user 1 delivers the stamped event to both
10 and 11 and leaves 20 (and the registry) untouched. -/
theorem hub_publish_fanout_witness :
    (hubPublish fanoutHub 1 demoEvent 7).subscribers = fanoutHub.subscribers
    ∧ ({ id := 20, buf := [], capacity := 10, closed := false } : Chan) ∈
        (hubPublish fanoutHub 1 demoEvent 7).chans
    ∧ ({ id := 10, buf := [stampedDemoEvent], capacity := 10,
          closed := false } : Chan) ∈ (hubPublish fanoutHub 1 demoEvent 7).chans
    ∧ ({ id := 11, buf := [stampedDemoEvent], capacity := 10,
          closed := false } : Chan) ∈
        (hubPublish fanoutHub 1 demoEvent 7).chans := by
  refine ⟨(hub_publish_fanout fanoutHub 1 demoEvent 7).1, ?_, ?_, ?_⟩
  · exact (hub_publish_fanout fanoutHub 1 demoEvent 7).2.1
      { id := 20, buf := [], capacity := 10, closed := false }
      (by decide) (by decide)
  · exact (hub_publish_fanout fanoutHub 1 demoEvent 7).2.2
      { id := 10, buf := [], capacity := 10, closed := false }
      (by decide) (by decide) (by decide)
  · exact (hub_publish_fanout fanoutHub 1 demoEvent 7).2.2
      { id := 11, buf := [], capacity := 10, closed := false }
      (by decide) (by decide) (by decide)

/-- C7: `Hub.Publish` is a total function (it cannot fail or block), and a
registered channel whose buffer is already at capacity is left exactly as
it was — the overflow delivery is silently dropped — while the channel
count is preserved and the user's other channels with room still receive
the event. -/
theorem hub_publish_drops_on_full (h : Hub) (userId : Nat) (e : Event) (now : Nat) :
    (∀ ch ∈ h.chans, (regLookup h.subscribers userId).contains ch.id = true →
        ch.capacity ≤ ch.buf.length → ch ∈ (hubPublish h userId e now).chans)
    ∧ (hubPublish h userId e now).chans.length = h.chans.length
    ∧ (∀ ch ∈ h.chans, (regLookup h.subscribers userId).contains ch.id = true →
        ch.buf.length < ch.capacity →
        { ch with buf := ch.buf ++ [{ e with timestamp := now }] } ∈
          (hubPublish h userId e now).chans) := by
  refine ⟨?_, ?_, ?_⟩
  · intro ch hch hyes hfull
    have hyes' : ch.id ∈ regLookup h.subscribers userId := by simpa using hyes
    have hnotroom : ¬ ch.buf.length < ch.capacity := by omega
    simp only [hubPublish, List.mem_map]
    exact ⟨ch, hch, by simp [hyes', trySend, hnotroom]⟩
  · simp [hubPublish]
  · intro ch hch hyes hroom
    have hyes' : ch.id ∈ regLookup h.subscribers userId := by simpa using hyes
    simp only [hubPublish, List.mem_map]
    exact ⟨ch, hch, by simp [hyes', trySend, hroom]⟩

/-- Witness for C7: channel 30 of user 1 is full (ten queued events);
publishing one more event leaves 30's queue exactly as it was while the
empty channel 31 of the same user still receives the event. -/
theorem hub_publish_drops_on_full_witness :
    ({ id := 30, buf := List.replicate 10 demoEvent, capacity := 10,
        closed := false } : Chan) ∈ (hubPublish fullChanHub 1 demoEvent 7).chans
    ∧ (hubPublish fullChanHub 1 demoEvent 7).chans.length = 2
    ∧ ({ id := 31, buf := [stampedDemoEvent], capacity := 10,
          closed := false } : Chan) ∈
        (hubPublish fullChanHub 1 demoEvent 7).chans := by
  refine ⟨?_, ?_, ?_⟩
  · exact (hub_publish_drops_on_full fullChanHub 1 demoEvent 7).1
      { id := 30, buf := List.replicate 10 demoEvent, capacity := 10,
        closed := false } (by decide) (by decide) (by decide)
  · exact (hub_publish_drops_on_full fullChanHub 1 demoEvent 7).2.1
  · exact (hub_publish_drops_on_full fullChanHub 1 demoEvent 7).2.2
      { id := 31, buf := [], capacity := 10, closed := false }
      (by decide) (by decide) (by decide)


/-- C10 (counterexample): `PlanRepository.GetSpentCents` takes no caller
and performs no existence check — for the plan id 999, which does not
exist in the demo snapshot, it returns the empty sum `Ok 0` instead of
`NotFound`; likewise it returns the spent total of an existing plan to any
caller whatsoever, as it never sees a user id. -/
theorem getSpentCents_no_ownership_check :
    getSpentCents demoDb 999 = .ok 0
    ∧ getSpentCents demoDb 999 ≠ .error .notFound
    ∧ getSpentCents demoDb2 10 = .ok 400 := by
  refine ⟨by decide, by decide, by decide⟩

/-- C10 (amended): `GetSpentCents` itself always succeeds, returning 0 for
a missing or foreign plan id; the `NotFound` of the Ledger Store failure
semantics is produced by the `GetByID` call that precedes every getSpent
use in the handlers, so the handler-level composition
`GetByID`-then-`GetSpentCents` does yield `NotFound` exactly when the plan
id is missing or not owned by the caller. -/
theorem getSpent_notfound_via_getbyid
    (db : DB) (userId planId : Nat)
    (h : db.plans.find? (fun p => p.id == planId && p.userId == userId) = none) :
    getSpentForUser db userId planId = .error .notFound
    ∧ ∃ v : Int, getSpentCents db planId = .ok v := by
  refine ⟨?_, ⟨_, rfl⟩⟩
  simp [getSpentForUser, planGetByID, h]

/-- Witness for C10's amended theorem: plan 10 is owned by user 1, so
user 2 asking for its spent figure through the handler path gets
`NotFound`. -/
theorem getSpent_notfound_via_getbyid_witness :
    getSpentForUser demoDb2 2 10 = .error .notFound
    ∧ ∃ v : Int, getSpentCents demoDb2 10 = .ok v :=
  getSpent_notfound_via_getbyid demoDb2 2 10 (by decide)


/-- Filtering and projecting the values of an enumeration ignores the
indices. -/
theorem enumFrom_filter_map_snd {a b : Type} (q : a → Bool) (g : a → b) :
    ∀ (l : List a) (base : Nat),
      (((l.enumFrom base).filter (fun e => q e.2)).map (fun e => g e.2))
        = (l.filter q).map g := by
  intro l
  induction l with
  | nil => intro base; rfl
  | cons x t ih =>
    intro base
    by_cases hq : q x = true
    · simp [List.enumFrom_cons, List.filter_cons, hq, ih]
    · simp [List.enumFrom_cons, List.filter_cons, hq, ih]

/-- Projecting the values of an enumeration recovers the mapped list. -/
theorem enumFrom_map_snd {a b : Type} (g : a → b) :
    ∀ (l : List a) (base : Nat),
      ((l.enumFrom base).map (fun e => g e.2)) = l.map g := by
  intro l
  induction l with
  | nil => intro base; rfl
  | cons x t ih => intro base; simp [List.enumFrom_cons, ih]

/-- Every index produced by `enumFrom base` is at least `base`. -/
theorem enumFrom_fst_ge {a : Type} :
    ∀ (l : List a) (base : Nat) (e : Nat × a),
      e ∈ l.enumFrom base → base ≤ e.1 := by
  intro l
  induction l with
  | nil => intro base e he; simp at he
  | cons x t ih =>
    intro base e he
    rw [List.enumFrom_cons] at he
    cases List.mem_cons.mp he with
    | inl h => subst h; exact Nat.le_refl base
    | inr h => exact Nat.le_of_succ_le (ih (base + 1) e h)

/-- When every source item's category has a mapping, the item-copy loop
succeeds and produces exactly the enumerated fresh-id copies. -/
theorem copyItems_ok (cmap : List (Nat × Nat)) :
    ∀ (l : List ExpenseItem) (base : Nat),
      (∀ i ∈ l, (cmap.lookup i.categoryId).isSome = true) →
      copyItems cmap l base = .ok ((l.enumFrom base).map (dupItemCopy cmap)) := by
  intro l
  induction l with
  | nil => intro base h; rfl
  | cons i t ih =>
    intro base h
    have hi := h i (List.mem_cons_self i t)
    cases hlk : cmap.lookup i.categoryId with
    | none => rw [hlk] at hi; simp at hi
    | some newCat =>
      unfold copyItems
      rw [hlk, ih (base + 1) (fun j hj => h j (List.mem_cons_of_mem i hj))]
      simp [List.enumFrom_cons, hlk, dupItemCopy]

/-- Looking an old category id up in the copy map yields `base` plus the
position of that id among the plan's category ids. -/
theorem categoryMap_lookup :
    ∀ (cats : List ExpenseCategory) (base : Nat) (cid : Nat),
      cid ∈ cats.map (·.id) →
      (((cats.enumFrom base).map (fun e => (e.2.id, e.1))).lookup cid)
        = some (base + (cats.map (·.id)).indexOf cid) := by
  intro cats
  induction cats with
  | nil => intro base cid h; simp at h
  | cons a t ih =>
    intro base cid h
    rw [List.enumFrom_cons]
    by_cases hc : a.id = cid
    · subst hc
      simp [List.lookup, List.indexOf_cons]
    · have hcf : (cid == a.id) = false := beq_eq_false_iff_ne.mpr (fun hx => hc hx.symm)
      have hcf2 : (a.id == cid) = false := beq_eq_false_iff_ne.mpr hc
      have hcid : cid ∈ t.map (·.id) := by
        cases List.mem_cons.mp h with
        | inl h0 => exact absurd h0.symm hc
        | inr h0 => exact h0
      simp only [List.map_cons, List.lookup, hcf, List.indexOf_cons, hcf2, cond_false]
      rw [ih (base + 1) cid hcid]
      have harith : base + 1 + (t.map (fun x => x.id)).indexOf cid
          = base + ((t.map (fun x => x.id)).indexOf cid + 1) := by omega
      rw [harith]

/-- The copy-marker title is always the 200-character truncation of
`"Copy of " ++ title` (when short, the truncation is the whole string). -/
theorem buildCopyTitle_eq (title : String) (m : Nat) :
    buildCopyTitle title m = ((("Copy of " ++ title).toList).take m).asString := by
  unfold buildCopyTitle
  by_cases h : ("Copy of " ++ title).length ≤ m
  · rw [if_pos h]
    have hlen : (("Copy of " ++ title).toList).length ≤ m := h
    rw [List.take_of_length_le hlen]
    cases hstr : ("Copy of " ++ title) with
    | mk l => rfl
  · rw [if_neg h]


/-- C8: duplicating an owned plan succeeds and produces a new plan with a
fresh id, the original's ceiling / period / color / AI flag and the
copy-marker title truncated to 200 characters (runes); every category and
note of the original is copied with a fresh id and identical title /
content, type and sort position, the items of the k-th category reappear
under the k-th copied category with identical title, amount, priority,
completed flag and position, the original's rows all survive, and no id is
shared between original and copy (old ids lie below `freshBase`, all new
ids at or above it). -/
theorem duplicate_plan_fidelity
    (db : DB) (userId planId freshBase : Nat) (original : BudgetPlan)
    (hwf : db.WF) (hfresh : db.idsBelow freshBase)
    (hfind : db.plans.find? (fun p => p.id == planId && p.userId == userId)
      = some original) :
    ∃ newPlan db',
      duplicatePlan db userId planId freshBase = .ok (newPlan, db')
      ∧ newPlan.id = freshBase
      ∧ (∀ p ∈ db.plans, p.id ≠ newPlan.id)
      ∧ newPlan.userId = original.userId
      ∧ newPlan.budgetCents = original.budgetCents
      ∧ newPlan.periodStart = original.periodStart
      ∧ newPlan.periodEnd = original.periodEnd
      ∧ newPlan.backgroundColor = original.backgroundColor
      ∧ newPlan.isAIGenerated = original.isAIGenerated
      ∧ newPlan.title = ((("Copy of " ++ original.title).toList).take 200).asString
      ∧ (∀ p ∈ db.plans, p ∈ db'.plans)
      ∧ (∀ c ∈ db.categories, c ∈ db'.categories)
      ∧ (∀ i ∈ db.items, i ∈ db'.items)
      ∧ (∀ x ∈ db.notes, x ∈ db'.notes)
      ∧ (∀ c ∈ db'.categories, c ∉ db.categories → freshBase ≤ c.id)
      ∧ (∀ i ∈ db'.items, i ∉ db.items → freshBase ≤ i.id)
      ∧ (∀ x ∈ db'.notes, x ∉ db.notes → freshBase ≤ x.id)
      ∧ (catsOfPlan db' freshBase).map (fun c => (c.title, c.categoryType, c.sortOrder))
          = (catsOfPlan db planId).map (fun c => (c.title, c.categoryType, c.sortOrder))
      ∧ (notesOfPlan db' freshBase).map (fun x => (x.content, x.noteType, x.sortOrder))
          = (notesOfPlan db planId).map (fun x => (x.content, x.noteType, x.sortOrder))
      ∧ (∀ k, ∀ hk : k < (catsOfPlan db planId).length,
          (itemsOfCat db' (freshBase + 1 + k)).map itemData
            = (itemsOfCat db ((catsOfPlan db planId).get ⟨k, hk⟩).id).map itemData) := by
  have hkeys : ∀ i ∈ dupOldItems db planId,
      (((dupCategoryMap db planId freshBase).lookup i.categoryId)).isSome = true := by
    intro i hi
    have hmem := List.mem_filter.mp hi
    have hcont : i.categoryId ∈ (catsOfPlan db planId).map (fun c => c.id) := by
      simpa using hmem.2
    rw [dupCategoryMap, categoryMap_lookup _ _ _ hcont]
    rfl
  have hcopy := copyItems_ok (dupCategoryMap db planId freshBase)
    (dupOldItems db planId) (dupItemBase db planId freshBase) hkeys
  have hstep : duplicatePlan db userId planId freshBase =
      match copyItems (dupCategoryMap db planId freshBase) (dupOldItems db planId)
          (dupItemBase db planId freshBase) with
      | .error e => .error e
      | .ok newItems => .ok (dupNewPlan original freshBase,
          dupDb db planId freshBase original newItems) := by
    unfold duplicatePlan
    rw [hfind]
  have hdp : duplicatePlan db userId planId freshBase =
      .ok (dupNewPlan original freshBase,
        dupDb db planId freshBase original
          (((dupOldItems db planId).enumFrom (dupItemBase db planId freshBase)).map
            (dupItemCopy (dupCategoryMap db planId freshBase)))) := by
    rw [hstep, hcopy]
  refine ⟨dupNewPlan original freshBase, _, hdp, rfl, ?_, rfl, rfl, rfl, rfl, rfl, rfl,
    buildCopyTitle_eq original.title 200, ?_, ?_, ?_, ?_, ?_, ?_, ?_, ?_, ?_, ?_⟩
  · intro p hp
    exact Nat.ne_of_lt (hfresh.1 p hp)
  · intro p hp
    exact List.mem_append_left _ hp
  · intro c hc
    exact List.mem_append_left _ hc
  · intro i hi
    exact List.mem_append_left _ hi
  · intro x hx
    exact List.mem_append_left _ hx
  · intro c hc hnot
    cases List.mem_append.mp hc with
    | inl h0 => exact absurd h0 hnot
    | inr h0 =>
      unfold dupNewCats at h0
      obtain ⟨e, he, heq⟩ := List.mem_map.mp h0
      rw [← heq]
      exact Nat.le_of_succ_le (enumFrom_fst_ge _ _ _ he)
  · intro i hi hnot
    cases List.mem_append.mp hi with
    | inl h0 => exact absurd h0 hnot
    | inr h0 =>
      obtain ⟨e, he, heq⟩ := List.mem_map.mp h0
      rw [← heq]
      have hge := enumFrom_fst_ge _ _ _ he
      unfold dupItemBase at hge
      show freshBase ≤ e.1
      omega
  · intro x hx hnot
    cases List.mem_append.mp hx with
    | inl h0 => exact absurd h0 hnot
    | inr h0 =>
      unfold dupNewNotes at h0
      obtain ⟨e, he, heq⟩ := List.mem_map.mp h0
      rw [← heq]
      have hge := enumFrom_fst_ge _ _ _ he
      unfold dupItemBase at hge
      show freshBase ≤ e.1
      omega
  · -- category fidelity
    have hold : db.categories.filter (fun c => c.planId == freshBase) = [] := by
      rw [List.filter_eq_nil_iff]
      intro c hcmem
      have hlt := (hfresh.2.1 c hcmem).2
      simp only [beq_iff_eq]
      omega
    have hnewkeep : (dupNewCats db planId freshBase).filter
        (fun c => c.planId == freshBase) = dupNewCats db planId freshBase := by
      rw [List.filter_eq_self]
      intro c hcmem
      unfold dupNewCats at hcmem
      obtain ⟨e, he, heq⟩ := List.mem_map.mp hcmem
      rw [← heq]
      simp
    show ((db.categories ++ dupNewCats db planId freshBase).filter
        (fun c => c.planId == freshBase)).map
        (fun c => (c.title, c.categoryType, c.sortOrder))
      = ((catsOfPlan db planId).map (fun c => (c.title, c.categoryType, c.sortOrder)))
    rw [List.filter_append, hold, hnewkeep, List.nil_append]
    unfold dupNewCats
    rw [List.map_map]
    show ((catsOfPlan db planId).enumFrom (freshBase + 1)).map
        (fun e => (e.2.title, e.2.categoryType, e.2.sortOrder))
      = (catsOfPlan db planId).map (fun c => (c.title, c.categoryType, c.sortOrder))
    exact enumFrom_map_snd
      (fun c : ExpenseCategory => (c.title, c.categoryType, c.sortOrder))
      (catsOfPlan db planId) (freshBase + 1)
  · -- note fidelity
    have hold : db.notes.filter (fun x => x.planId == freshBase) = [] := by
      rw [List.filter_eq_nil_iff]
      intro x hxmem
      have hlt := (hfresh.2.2.2 x hxmem).2
      simp only [beq_iff_eq]
      omega
    have hnewkeep : (dupNewNotes db planId freshBase).filter
        (fun x => x.planId == freshBase) = dupNewNotes db planId freshBase := by
      rw [List.filter_eq_self]
      intro x hxmem
      unfold dupNewNotes at hxmem
      obtain ⟨e, he, heq⟩ := List.mem_map.mp hxmem
      rw [← heq]
      simp
    show ((db.notes ++ dupNewNotes db planId freshBase).filter
        (fun x => x.planId == freshBase)).map
        (fun x => (x.content, x.noteType, x.sortOrder))
      = ((notesOfPlan db planId).map (fun x => (x.content, x.noteType, x.sortOrder)))
    rw [List.filter_append, hold, hnewkeep, List.nil_append]
    unfold dupNewNotes
    rw [List.map_map]
    show ((notesOfPlan db planId).enumFrom
        (dupItemBase db planId freshBase + (dupOldItems db planId).length)).map
        (fun e => (e.2.content, e.2.noteType, e.2.sortOrder))
      = (notesOfPlan db planId).map (fun x => (x.content, x.noteType, x.sortOrder))
    exact enumFrom_map_snd
      (fun x : Note => (x.content, x.noteType, x.sortOrder))
      (notesOfPlan db planId)
      (dupItemBase db planId freshBase + (dupOldItems db planId).length)
  · -- item fidelity per corresponding category
    intro k hk
    have hk' : k < ((catsOfPlan db planId).map (fun c => c.id)).length := by
      simpa using hk
    have hKold : ((catsOfPlan db planId).get ⟨k, hk⟩).id
        = ((catsOfPlan db planId).map (fun c => c.id)).get ⟨k, hk'⟩ := by
      simp [List.get_eq_getElem, List.getElem_map]
    have hNodupCats : ((db.categories.filter (fun c => c.planId == planId)).map
        (fun c => c.id)).Nodup :=
      nodup_filtered_ids (fun c : ExpenseCategory => c.id)
        (fun c => c.planId == planId) hwf.2.1
    have holditems : db.items.filter
        (fun i => i.categoryId == freshBase + 1 + k) = [] := by
      rw [List.filter_eq_nil_iff]
      intro i hi
      have hlt := (hfresh.2.2.1 i hi).2
      simp only [beq_iff_eq]
      omega
    show ((db.items ++
        (((dupOldItems db planId).enumFrom (dupItemBase db planId freshBase)).map
          (dupItemCopy (dupCategoryMap db planId freshBase)))).filter
        (fun i => i.categoryId == freshBase + 1 + k)).map itemData
      = ((db.items.filter
          (fun i => i.categoryId == ((catsOfPlan db planId).get ⟨k, hk⟩).id)).map
          itemData)
    rw [List.filter_append, holditems, List.nil_append]
    have hstep2 : ((((dupOldItems db planId).enumFrom
        (dupItemBase db planId freshBase)).map
          (dupItemCopy (dupCategoryMap db planId freshBase))).filter
        (fun i => i.categoryId == freshBase + 1 + k)).map itemData
        = ((dupOldItems db planId).filter
            (fun j => ((((dupCategoryMap db planId freshBase).lookup
              j.categoryId)).getD 0 == freshBase + 1 + k))).map itemData := by
      rw [List.filter_map, List.map_map]
      exact enumFrom_filter_map_snd
        (fun j => ((((dupCategoryMap db planId freshBase).lookup
          j.categoryId)).getD 0 == freshBase + 1 + k)) itemData
        (dupOldItems db planId) (dupItemBase db planId freshBase)
    rw [hstep2]
    have hpt : ∀ j ∈ dupOldItems db planId,
        ((((dupCategoryMap db planId freshBase).lookup j.categoryId)).getD 0
          == freshBase + 1 + k)
        = (j.categoryId == ((catsOfPlan db planId).get ⟨k, hk⟩).id) := by
      intro j hj
      have hjmem : j.categoryId ∈ (catsOfPlan db planId).map (fun c => c.id) := by
        simpa using (List.mem_filter.mp hj).2
      rw [dupCategoryMap, categoryMap_lookup _ _ _ hjmem]
      simp only [Option.getD_some]
      by_cases hjk : j.categoryId = ((catsOfPlan db planId).get ⟨k, hk⟩).id
      · have hidx : ((catsOfPlan db planId).map (fun c => c.id)).indexOf
            j.categoryId = k := by
          rw [hjk, hKold]
          exact nodup_indexOf_get _ k hk' hNodupCats
        rw [hidx]
        simp [hjk]
      · have hib : ((catsOfPlan db planId).map (fun c => c.id)).indexOf
            j.categoryId < ((catsOfPlan db planId).map (fun c => c.id)).length :=
          indexOf_lt_length_of_mem _ _ hjmem
        have hidxne : ((catsOfPlan db planId).map (fun c => c.id)).indexOf
            j.categoryId ≠ k := by
          intro hcontra
          apply hjk
          rw [hKold]
          have hself := indexOf_get_self _ _ hjmem hib
          rw [← hself]
          congr 1
          exact Fin.ext hcontra
        have h1 : (freshBase + 1 + ((catsOfPlan db planId).map
            (fun c => c.id)).indexOf j.categoryId == freshBase + 1 + k) = false :=
          beq_eq_false_iff_ne.mpr (by omega)
        have h2 : (j.categoryId == ((catsOfPlan db planId).get ⟨k, hk⟩).id)
            = false := beq_eq_false_iff_ne.mpr hjk
        rw [h1, h2]
    rw [List.filter_congr hpt]
    have hKmem : ((catsOfPlan db planId).get ⟨k, hk⟩).id
        ∈ (catsOfPlan db planId).map (fun c => c.id) := by
      rw [hKold]
      exact List.get_mem _ _ _
    have hdrop : (dupOldItems db planId).filter
        (fun j => j.categoryId == ((catsOfPlan db planId).get ⟨k, hk⟩).id)
        = db.items.filter
          (fun j => j.categoryId == ((catsOfPlan db planId).get ⟨k, hk⟩).id) := by
      unfold dupOldItems
      rw [List.filter_filter]
      refine List.filter_congr ?_
      intro j hj
      by_cases hjc : j.categoryId = ((catsOfPlan db planId).get ⟨k, hk⟩).id
      · have hcont : ((catsOfPlan db planId).map (fun c => c.id)).contains
            j.categoryId = true := by
          rw [hjc]
          simpa using hKmem
        have hb : (j.categoryId == ((catsOfPlan db planId).get ⟨k, hk⟩).id)
            = true := by simp [hjc]
        rw [hb, Bool.true_and]
        exact hcont
      · have h2 : (j.categoryId == ((catsOfPlan db planId).get ⟨k, hk⟩).id)
            = false := beq_eq_false_iff_ne.mpr hjc
        rw [h2, Bool.false_and]
    rw [hdrop]


/-- Witness for C8: duplicating the demo plan (two categories, three
items, one note) with fresh ids from 2000 succeeds, the copy's id is 2000,
its title carries the copy marker, and the copied categories and notes
carry identical attributes. -/
theorem duplicate_plan_fidelity_witness :
    ∃ newPlan db',
      duplicatePlan demoDb4 1 10 2000 = .ok (newPlan, db')
      ∧ newPlan.id = 2000
      ∧ newPlan.title = "Copy of Demo"
      ∧ (catsOfPlan db' 2000).map (fun c => (c.title, c.categoryType, c.sortOrder))
          = (catsOfPlan demoDb4 10).map (fun c => (c.title, c.categoryType, c.sortOrder))
      ∧ (notesOfPlan db' 2000).map (fun x => (x.content, x.noteType, x.sortOrder))
          = (notesOfPlan demoDb4 10).map (fun x => (x.content, x.noteType, x.sortOrder)) := by
  obtain ⟨np, db', hdp, hid, -, -, -, -, -, -, -, htitle, -, -, -, -, -, -, -,
    hcats, hnotes, -⟩ :=
    duplicate_plan_fidelity demoDb4 1 10 2000 demoPlan (by decide) (by decide)
      (by decide)
  exact ⟨np, db', hdp, hid, by rw [htitle]; decide, hcats, hnotes⟩

end Budget
